import Mathlib

/-!
# zachlatta/cdn: the upload pipeline and its short-name resolver

A shallow embedding of `src/main.go` (functions `upload`, `handleErr`,
`shortestAvailableTruncatedFilename`, `firstN`, `fileExists`,
`inferFileExtension`) and the properties of the specification settled on it.

Conventions of the embedding.

* A Go `string` is a Lean `String`: a sequence of Unicode code points held in
  UTF-8 (byte sequences that are not valid UTF-8 are outside the model).
  `for j := range s` visits one code point per iteration, `j` being the byte
  offset of that code point, and `s[:j]` is `s.extract 0 ⟨j⟩`.
* A Go `error` is `Option Errno` (`none` is `nil`); a Go function with two
  results returns a Lean pair.
* Go's `int` is `Int`. The counter of `firstN` never passes the number of code
  points of its argument, and the one other addition, `startingLength+1`, sits
  in a branch of the resolver that is never reached, so no addition wraps.
* The destination directory is a map from paths to contents. The handler is a
  function from the state of the directory before the request to the response,
  the state after the request and the list of calls made.
* Library calls and I/O failures are the fields of `World`. The deferred
  `os.Remove` has no fault: the removal of the file the request created is
  taken to succeed when the file is still there.
-/

namespace Cdn

/-! ## Errors -/

/-- The error numbers the model distinguishes. Only `ENOENT` is special for
the program (`os.IsNotExist`); the others stand for any other failure. -/
inductive Errno where
  | ENOENT
  | EEXIST
  | EACCES
  | EIO
  | ENOSPC
  | EINVAL
  deriving DecidableEq, Repr

/-- Go's `error` interface value: `none` is `nil`. -/
abbrev error := Option Errno

/-- Go's `os.IsNotExist(err)`: true exactly for the "file does not exist" error;
`os.IsNotExist(nil)` is false. -/
def IsNotExist (err : error) : Bool :=
  match err with
  | some Errno.ENOENT => true
  | _ => false

/-! ## Strings: `firstN` (main.go 141-151) -/

/-- The loop of `firstN`: `for j := range s { if i == n { return s[:j] }; i++ }`
followed by `return s`. The first list holds the code points the `range` still
has to visit, `i` is the counter and `j` the byte offset of the next code
point. -/
def firstNLoop (s : String) (n : Int) : List Char → Int → Nat → String
  | [], _, _ => s
  | c :: rest, i, j =>
    if i = n then s.extract 0 ⟨j⟩
    else firstNLoop s n rest (i + 1) (j + c.utf8Size)

/-- Function `firstN(s string, n int) string` of main.go. -/
def firstN (s : String) (n : Int) : String :=
  firstNLoop s n s.data 0 0

/-! ## Existence check and resolver (main.go 121-160) -/

/-- Go's `filepath.Join(dir, elem)` for a directory path in cleaned form (other
than the root) and a plain file name: the two joined by one separator. -/
def filepathJoin (dir elem : String) : String :=
  dir ++ "/" ++ elem

/-- Function `fileExists(name string) (bool, error)` of main.go. `Stat` is the
error result of `os.Stat` on a path (the `FileInfo` result is discarded by the
source). -/
def fileExists (Stat : String → error) (name : String) : Bool × error :=
  let err := Stat name
  if IsNotExist err then
    (false, none)
  else
    (err != none, err)

set_option linter.unusedVariables false in
/-- Function `shortestAvailableTruncatedFilename(startingLength int, destDir,
nameToTruncate, ext string) (string, error)` of main.go. The locals `truncated`
(`firstN(nameToTruncate, startingLength) + "." + ext`) and `path`
(`filepath.Join(destDir, truncated)`) are written out where they are used. The
recursive call sits in the `if exists` branch exactly as in the source; the
recursion is accepted because that branch cannot be reached once `err != nil`
has returned (see `decreasing_by`). -/
def shortestAvailableTruncatedFilename (Stat : String → error) (startingLength : Int)
    (destDir nameToTruncate ext : String) : String × error :=
  match h : fileExists Stat
      (filepathJoin destDir (firstN nameToTruncate startingLength ++ "." ++ ext)) with
  | (found, err) =>
    if herr : err ≠ none then
      ("", err)
    else if hfound : found = true then
      shortestAvailableTruncatedFilename Stat (startingLength + 1) destDir nameToTruncate ext
    else
      (firstN nameToTruncate startingLength ++ "." ++ ext, none)
termination_by (0 : Nat)
decreasing_by
  exfalso
  simp only [fileExists] at h
  split at h
  · simp only [Prod.mk.injEq] at h
    rw [hfound] at h
    exact absurd h.1 (by decide)
  · simp only [Prod.mk.injEq] at h
    rw [hfound] at h
    obtain ⟨h1, h2⟩ := h
    rw [h2] at h1
    simp at herr
    rw [herr] at h1
    exact absurd h1 (by decide)


/-- A directory listing read as the result of `os.Stat`: the listed paths exist
(`nil`), every other path is "not found". -/
def statOf (paths : List String) : String → error :=
  fun p => if p ∈ paths then none else some Errno.ENOENT

/-! ## The destination directory and the outside world -/

/-- File contents and request bodies. -/
abbrev Bytes := List UInt8

/-- The files of the destination directory: path to content. -/
abbrev FileSystem := String → Option Bytes

/-- The file at `path` gets content `c` (created if absent). -/
def writeFile (fs : FileSystem) (path : String) (c : Bytes) : FileSystem :=
  fun q => if q = path then some c else fs q

/-- The file at `path` is unlinked. -/
def removeFile (fs : FileSystem) (path : String) : FileSystem :=
  fun q => if q = path then none else fs q

/-- An open file: Go's `*os.File`, its name and its read/write offset. -/
structure File where
  name : String
  offset : Nat
  deriving DecidableEq, Repr

/-- An upload request: the bytes its body delivers and the error that ends the
stream (`none`: the stream ends with EOF). -/
structure Request where
  Body : Bytes
  bodyErr : error

/-- Everything outside the repository that the handler depends on: the
configuration, the library functions and the I/O failures of one run. A fault
that is present strikes; `(k, e)` strikes with `e` after `k` bytes. -/
structure World where
  /-- Global `destDir` (`FS_DEST_DIR`), in cleaned form. -/
  destDir : String
  /-- The random numbers `os.CreateTemp` draws, by attempt. -/
  rand : Nat → Nat
  /-- Failure of the `OpenFile` inside `os.CreateTemp` other than "exists". -/
  openFault : error
  /-- Failure while writing to the temporary file. -/
  writeFault : Option (Nat × Errno)
  /-- Failure while reading the temporary file back. -/
  readFault : Option (Nat × Errno)
  /-- The digest function behind `sha256.New()` / `hasher.Sum(nil)`. -/
  Sum256 : Bytes → Bytes
  /-- Failure of `filetype.MatchFile` to open or read the file. -/
  matchFault : error
  /-- The `Extension` of the type `filetype` matches on a content
  (`"unknown"` when no signature matches). -/
  Match : Bytes → String
  /-- Failure of `os.Stat` on a path other than "not found". -/
  statFault : String → error
  /-- Failure of `os.Rename`. -/
  renameFault : error
  /-- The error result of `url.Parse`. -/
  urlParse : String → error
  /-- The text of `baseURL.ResolveReference(u).String()` for the parsed
  reference `u`, given by its text. -/
  ResolveReference : String → String

/-- Go's `os.Stat(path)` (error result) on the directory state `fs`. -/
def Stat (w : World) (fs : FileSystem) (path : String) : error :=
  match w.statFault path with
  | some e => some e
  | none => if (fs path).isSome then none else some Errno.ENOENT

/-- The retry loop of Go's `os.CreateTemp`: `attempt` counts the names tried,
`fuel` the tries left of the 10000 allowed. A new name is opened with
`O_RDWR|O_CREATE|O_EXCL`: an existing name is retried, any other failure is
returned, and success creates the empty file and returns it at offset 0. -/
def CreateTempLoop (w : World) (fs : FileSystem) (pattern : String) :
    Nat → Nat → Option File × FileSystem × error
  | 0, _ => (none, fs, some Errno.EEXIST)
  | fuel + 1, attempt =>
    let name := filepathJoin w.destDir (pattern ++ Nat.repr (w.rand attempt))
    match w.openFault with
    | some e => (none, fs, some e)
    | none =>
      if (fs name).isSome then CreateTempLoop w fs pattern fuel (attempt + 1)
      else (some ⟨name, 0⟩, writeFile fs name [], none)

/-- Go's `os.CreateTemp(destDir, "tmp-upload-*")`: the pattern has the
prefix `tmp-upload-` and an empty suffix. -/
def CreateTemp (w : World) (fs : FileSystem) : Option File × FileSystem × error :=
  CreateTempLoop w fs "tmp-upload-" 10000 0

/-- Go's `f.Write(data)` at the offset of `f`: the bytes overwrite the content
from the offset on and the offset advances. -/
def writeAt (content : Bytes) (offset : Nat) (data : Bytes) : Bytes :=
  content.take offset ++ data ++ content.drop (offset + data.length)

/-- Go's `io.Copy(tempFile, r.Body)`: the body is written to the file at its
offset until the stream ends; the error is that of the write fault, else the
one that ended the stream. -/
def copyToFile (w : World) (fs : FileSystem) (f : File) (r : Request) :
    File × FileSystem × error :=
  let written : Bytes × error :=
    match w.writeFault with
    | some (k, e) => (r.Body.take k, some e)
    | none => (r.Body, r.bodyErr)
  (⟨f.name, f.offset + written.1.length⟩,
   writeFile fs f.name (writeAt ((fs f.name).getD []) f.offset written.1),
   written.2)

/-- Go's `io.Copy(hasher, tempFile)`: the file is read from its current offset
to its end and the bytes read are fed to the hasher. Returns the bytes fed. -/
def copyFromFile (w : World) (fs : FileSystem) (f : File) : Bytes × File × error :=
  let available := ((fs f.name).getD []).drop f.offset
  match w.readFault with
  | some (k, e) => (available.take k, ⟨f.name, f.offset + (available.take k).length⟩, some e)
  | none => (available, ⟨f.name, f.offset + available.length⟩, none)

/-- The table of Go's `encoding/hex`. -/
def hextable : List Char := "0123456789abcdef".data

/-- Go's `hex.EncodeToString`. -/
def EncodeToString (src : Bytes) : String :=
  String.mk (src.flatMap fun v =>
    [hextable.getD (v.toNat >>> 4) '0', hextable.getD (v.toNat &&& 0x0f) '0'])

/-- Go's `filetype.MatchFile(path)`, reduced to the extension of the type and
the error. -/
def MatchFile (w : World) (fs : FileSystem) (path : String) : String × error :=
  match w.matchFault with
  | some e => ("unknown", some e)
  | none =>
    match fs path with
    | none => ("unknown", some Errno.ENOENT)
    | some c => (w.Match c, none)

/-- Function `inferFileExtension(path string) (string, error)` of main.go. -/
def inferFileExtension (w : World) (fs : FileSystem) (path : String) : String × error :=
  match MatchFile w fs path with
  | (t, err) =>
    if err ≠ none then
      ("", err)
    else
      (t, none)

/-- Go's `os.Rename(oldpath, newpath)`: atomic, replaces `newpath` if it
exists. -/
def Rename (w : World) (fs : FileSystem) (oldpath newpath : String) : FileSystem × error :=
  match w.renameFault with
  | some e => (fs, some e)
  | none =>
    match fs oldpath with
    | none => (fs, some Errno.ENOENT)
    | some c => (writeFile (removeFile fs oldpath) newpath c, none)

/-- Go's `os.Remove(name)` with its error dropped, as the deferred call does:
the file is unlinked when it is there, and nothing happens when it is not. -/
def Remove (fs : FileSystem) (name : String) : FileSystem :=
  removeFile fs name

/-! ## The handler (main.go 67-119) -/

/-- The HTTP response: status code and body. -/
structure Response where
  status : Nat
  body : String
  deriving DecidableEq, Repr

/-- The calls of one run that the properties refer to. -/
inductive Event where
  /-- The bytes the second `io.Copy` fed to the hasher. -/
  | hashed (input : Bytes)
  /-- The result of `inferFileExtension`. -/
  | classified (fileExt : String) (err : error)
  /-- A call of `shortestAvailableTruncatedFilename`. -/
  | resolve (startingLength : Int) (nameToTruncate ext : String)
  /-- A call of `os.Rename`. -/
  | rename (oldpath newpath : String)
  deriving DecidableEq

/-- What one run of the handler leaves behind. -/
structure Outcome where
  response : Response
  fs : FileSystem
  trace : List Event

/-- The events that are a call of the resolver or of `os.Rename`. -/
def isResolveOrRename : Event → Bool
  | Event.resolve _ _ _ => true
  | Event.rename _ _ => true
  | _ => false

/-- Function `handleErr` of main.go: `http.Error(w, userMsg, statusCode)`
answers with the status and the message followed by a newline (the log line is
not modelled). -/
def handleErr (_err : error) (userMsg : String) (statusCode : Nat) : Response :=
  ⟨statusCode, userMsg ++ "\n"⟩

/-- The part of `upload` that runs between `defer os.Remove(tempFile.Name())`
and the execution of the deferred call. -/
def uploadStaged (w : World) (fs : FileSystem) (tempFile : File) (r : Request) : Outcome :=
  match copyToFile w fs tempFile r with
  | (tempFile1, fs1, err) =>
    if err ≠ none then
      ⟨handleErr err "error writing uploaded file to disk" 500, fs1, []⟩
    else
      match copyFromFile w fs1 tempFile1 with
      | (hashInput, _, err) =>
        if err ≠ none then
          ⟨handleErr err "error hashing file" 500, fs1, [Event.hashed hashInput]⟩
        else
          match inferFileExtension w fs1 tempFile.name with
          | (fileExt, err) =>
            if err ≠ none ∨ fileExt = "unknown" then
              ⟨handleErr err "failed to infer file type" 400, fs1,
                [Event.hashed hashInput, Event.classified fileExt err]⟩
            else
              let fileHash := EncodeToString (w.Sum256 hashInput)
              match shortestAvailableTruncatedFilename (Stat w fs1) 2 w.destDir
                  fileHash fileExt with
              | (fileName, err) =>
                if err ≠ none then
                  ⟨handleErr err "error generating filename for uploaded file" 500, fs1,
                    [Event.hashed hashInput, Event.classified fileExt none,
                     Event.resolve 2 fileHash fileExt]⟩
                else
                  let destPath := filepathJoin w.destDir fileName
                  match Rename w fs1 tempFile.name destPath with
                  | (fs2, err) =>
                    if err ≠ none then
                      ⟨handleErr err "error moving temporary file to FS_DEST_DIR" 500, fs2,
                        [Event.hashed hashInput, Event.classified fileExt none,
                         Event.resolve 2 fileHash fileExt,
                         Event.rename tempFile.name destPath]⟩
                    else
                      match w.urlParse ("./" ++ fileName) with
                      | some e =>
                        ⟨handleErr (some e) "internal error constructing file URL" 500, fs2,
                          [Event.hashed hashInput, Event.classified fileExt none,
                           Event.resolve 2 fileHash fileExt,
                           Event.rename tempFile.name destPath]⟩
                      | none =>
                        ⟨⟨200, w.ResolveReference ("./" ++ fileName) ++ "\n"⟩, fs2,
                          [Event.hashed hashInput, Event.classified fileExt none,
                           Event.resolve 2 fileHash fileExt,
                           Event.rename tempFile.name destPath]⟩

/-- Function `upload` of main.go: the state of the destination directory goes
in, the response, the new state and the calls made come out. -/
def upload (w : World) (fs : FileSystem) (r : Request) : Outcome :=
  match CreateTemp w fs with
  | (none, fs0, err) =>
    ⟨handleErr err "error writing temporary file to disk" 500, fs0, []⟩
  | (some tempFile, fs0, _) =>
    let out := uploadStaged w fs0 tempFile r
    ⟨out.response, Remove out.fs tempFile.name, out.trace⟩

/-! ## Concrete data for the evaluated runs -/

/-- SHA-256 of the empty input. -/
def emptyDigest : Bytes :=
  [0xe3, 0xb0, 0xc4, 0x42, 0x98, 0xfc, 0x1c, 0x14, 0x9a, 0xfb, 0xf4, 0xc8, 0x99, 0x6f, 0xb9, 0x24,
   0x27, 0xae, 0x41, 0xe4, 0x64, 0x9b, 0x93, 0x4c, 0xa4, 0x95, 0x99, 0x1b, 0x78, 0x52, 0xb8, 0x55]

/-- The 64 hex characters of `emptyDigest`. -/
def emptyDigestHex : String :=
  "e3b0c44298fc1c149afbf4c8996fb92427ae41e4649b934ca495991b7852b855"

/-- The directory `d` holding, for the digest `emptyDigestHex` and the
extension `png`, every prefix name of length 2 up to the full 64. -/
def fullDirectory : List String :=
  (List.range 63).map fun (k : Nat) =>
    filepathJoin "d" (firstN emptyDigestHex ((k : Int) + 2) ++ ".png")

/-- The first bytes of a PNG file. -/
def pngBytes : Bytes := [0x89, 0x50, 0x4e, 0x47, 0x0d, 0x0a, 0x1a, 0x0a]

/-- Another PNG content, standing for a file published earlier. -/
def olderPng : Bytes := [0x89, 0x50, 0x4e, 0x47, 0x0d, 0x0a, 0x1a, 0x0a, 0x00]

/-- A world without faults, for the evaluated runs: directory `d`, the PNG
signature check of `filetype`, a URL parser that accepts, and a digest
function that is SHA-256 on the empty input (its value elsewhere is a
placeholder of 32 zero bytes, not SHA-256). -/
def quietWorld : World where
  destDir := "d"
  rand := fun attempt => 7 + attempt
  openFault := none
  writeFault := none
  readFault := none
  Sum256 := fun input => if input = [] then emptyDigest else List.replicate 32 0
  matchFault := none
  Match := fun c => if c.take 4 = [0x89, 0x50, 0x4e, 0x47] then "png" else "unknown"
  statFault := fun _ => none
  renameFault := none
  urlParse := fun _ => none
  ResolveReference := fun u => "https://cdn.example/" ++ u.drop 2

/-- A content without any known signature: sixteen zero bytes. -/
def zeroBytes : Bytes := List.replicate 16 0

/-- The empty destination directory. -/
def emptyDir : FileSystem := fun _ => none

/-- The destination directory after an earlier upload published `d/e3.png`. -/
def usedDir : FileSystem := writeFile emptyDir "d/e3.png" olderPng

/-! ## Lemmas on `firstN` -/

/-- The byte slice `s[:j]` at the byte offset that follows the code points
`done` is the string of those code points. -/
theorem extract_zero_utf8Len (done rest : List Char) :
    (String.mk (done ++ rest)).extract 0 ⟨String.utf8Len done⟩ = String.mk done := by
  have h := String.extract_of_valid [] done rest
  simpa using h

/-- Invariant of the loop of `firstN` for a non-negative bound: after the code
points `done` have been visited, with the counter at their number and the
offset at their byte length, the loop yields the first `n` code points. -/
theorem firstNLoop_nat (s : String) (n : Nat) :
    ∀ (rest done : List Char), s.data = done ++ rest → done.length ≤ n →
      firstNLoop s (n : Int) rest (done.length : Int) (String.utf8Len done)
        = String.mk (s.data.take n) := by
  intro rest
  induction rest with
  | nil =>
    intro done hs hle
    simp only [firstNLoop]
    rw [hs, List.append_nil, List.take_of_length_le hle]
    rw [List.append_nil] at hs
    rw [← hs]
  | cons c rest ih =>
    intro done hs hle
    simp only [firstNLoop]
    by_cases hi : (done.length : Int) = (n : Int)
    · rw [if_pos hi]
      have hn : done.length = n := by exact_mod_cast hi
      have hsd : s = String.mk (done ++ c :: rest) := by
        rw [← hs]
      rw [hs, ← hn, List.take_left]
      conv_lhs => rw [hsd]
      exact extract_zero_utf8Len done (c :: rest)
    · rw [if_neg hi]
      have hn : done.length ≠ n := fun h => hi (by exact_mod_cast h)
      have h1 := ih (done ++ [c]) (by simp [hs]) (by simp; omega)
      simpa [String.utf8Len_append, String.utf8Len_cons] using h1

/-- With a negative bound the counter never meets it: the loop returns `s`. -/
theorem firstNLoop_neg (s : String) (n : Int) :
    ∀ (rest : List Char) (i : Int) (j : Nat), n < i → firstNLoop s n rest i j = s := by
  intro rest
  induction rest with
  | nil => intro i j _; rfl
  | cons c rest ih =>
    intro i j hlt
    simp only [firstNLoop]
    rw [if_neg (by omega)]
    exact ih (i + 1) (j + c.utf8Size) (by omega)

/-- For `n ≥ 0`, `firstN s n` is the string of the first `n` code points of `s`. -/
theorem firstN_nat (s : String) (n : Nat) :
    firstN s (n : Int) = String.mk (s.data.take n) := by
  have h := firstNLoop_nat s n s.data [] (by simp) (by simp)
  simpa [firstN] using h

/-- For `n < 0`, `firstN s n` is `s`. -/
theorem firstN_neg (s : String) (n : Int) (hn : n < 0) : firstN s n = s :=
  firstNLoop_neg s n s.data 0 0 hn

/-- The result of `firstN` is a leading part of its argument. -/
theorem firstN_append_rest (s : String) (n : Nat) :
    ∃ rest : String, s = firstN s (n : Int) ++ rest := by
  refine ⟨String.mk (s.data.drop n), ?_⟩
  rw [firstN_nat]
  apply String.ext
  rw [String.data_append]
  exact (List.take_append_drop n s.data).symm

/-- The number of code points of the result of `firstN`. -/
theorem firstN_length (s : String) (n : Nat) :
    (firstN s (n : Int)).length = min n s.length := by
  rw [firstN_nat]
  show (s.data.take n).length = min n s.data.length
  exact List.length_take n s.data

/-! ## Lemmas on the existence check and the resolver -/

/-- The three outcomes of `fileExists`: a successful `os.Stat` gives
`(false, nil)`, "not found" gives `(false, nil)`, any other error `e` gives
`(true, e)`. -/
theorem fileExists_cases (Stat : String → error) (name : String) :
    (Stat name = none ∧ fileExists Stat name = (false, none)) ∨
    (Stat name = some Errno.ENOENT ∧ fileExists Stat name = (false, none)) ∨
    (∃ e, e ≠ Errno.ENOENT ∧ Stat name = some e ∧ fileExists Stat name = (true, some e)) := by
  unfold fileExists
  cases hs : Stat name with
  | none => left; simp [IsNotExist]
  | some e =>
    cases e
    case ENOENT => right; left; simp [IsNotExist]
    all_goals
      right; right
      refine ⟨_, ?_, rfl, ?_⟩ <;> simp [IsNotExist]

/-- The boolean of `fileExists` is true only together with an error. -/
theorem fileExists_true_err (Stat : String → error) (name : String)
    (h : (fileExists Stat name).1 = true) : (fileExists Stat name).2 ≠ none := by
  rcases fileExists_cases Stat name with ⟨_, h1⟩ | ⟨_, h1⟩ | ⟨e, _, _, h1⟩
  · rw [h1] at h; exact absurd h (by decide)
  · rw [h1] at h; exact absurd h (by decide)
  · rw [h1]; simp

/-- One call of the resolver, without the recursion: it returns the error of
the existence check with the empty name, or else the candidate of length
`startingLength`. -/
theorem shortestAvailableTruncatedFilename_eq (Stat : String → error) (startingLength : Int)
    (destDir nameToTruncate ext : String) :
    shortestAvailableTruncatedFilename Stat startingLength destDir nameToTruncate ext =
      if (fileExists Stat
          (filepathJoin destDir (firstN nameToTruncate startingLength ++ "." ++ ext))).2 = none
      then (firstN nameToTruncate startingLength ++ "." ++ ext, none)
      else ("", (fileExists Stat
          (filepathJoin destDir (firstN nameToTruncate startingLength ++ "." ++ ext))).2) := by
  rw [shortestAvailableTruncatedFilename]
  split
  next found err h =>
    rw [h]
    by_cases herr : err = none
    · have hf : found = false := by
        cases found
        · rfl
        · exfalso
          have := fileExists_true_err Stat _ (by rw [h])
          rw [h] at this
          exact this herr
      simp [herr, hf]
    · simp [herr]


/-! ## Properties of `firstN` and of the resolver -/

/-- C10: for every string `s` and every `n ≥ 0`, `firstN s n` is the string of
the first `n` code points of `s` when `s` has more than `n` code points and is
`s` itself otherwise; it is a leading part of `s`, it has `min n (length s)` code
points, and applying `firstN · n` to it again changes nothing. -/
theorem firstN_spec (s : String) (n : Nat) :
    firstN s (n : Int) = (if n < s.length then String.mk (s.data.take n) else s) ∧
    (∃ rest : String, s = firstN s (n : Int) ++ rest) ∧
    (firstN s (n : Int)).length = min n s.length ∧
    firstN (firstN s (n : Int)) (n : Int) = firstN s (n : Int) := by
  refine ⟨?_, ?_, ?_, ?_⟩
  · rw [firstN_nat]
    by_cases h : n < s.length
    · rw [if_pos h]
    · rw [if_neg h]
      have hle : s.data.length ≤ n := by
        have : s.length = s.data.length := rfl
        omega
      rw [List.take_of_length_le hle]
  · exact firstN_append_rest s n
  · exact firstN_length s n
  · rw [firstN_nat, firstN_nat]
    show String.mk ((s.data.take n).take n) = String.mk (s.data.take n)
    rw [List.take_take, Nat.min_self]

/-- Whenever the resolver returns without error, the name is the candidate of
length `startingLength` itself: no longer candidate is ever returned. -/
theorem resolver_single_probe (Stat : String → error) (startingLength : Int)
    (destDir nameToTruncate ext result : String)
    (h : shortestAvailableTruncatedFilename Stat startingLength destDir nameToTruncate ext
      = (result, none)) :
    result = firstN nameToTruncate startingLength ++ "." ++ ext := by
  rw [shortestAvailableTruncatedFilename_eq] at h
  split at h
  · exact (congrArg Prod.fst h).symm
  · next hne => exact absurd (congrArg Prod.snd h) hne

/-- The resolver on an existing candidate: it returns that candidate. -/
theorem resolver_existing (Stat : String → error) (startingLength : Int)
    (destDir nameToTruncate ext : String)
    (h : Stat (filepathJoin destDir (firstN nameToTruncate startingLength ++ "." ++ ext)) = none) :
    shortestAvailableTruncatedFilename Stat startingLength destDir nameToTruncate ext
      = (firstN nameToTruncate startingLength ++ "." ++ ext, none) := by
  rw [shortestAvailableTruncatedFilename_eq]
  rcases fileExists_cases Stat
    (filepathJoin destDir (firstN nameToTruncate startingLength ++ "." ++ ext))
    with ⟨_, h1⟩ | ⟨_, h1⟩ | ⟨e, _, h2, _⟩
  · rw [h1]; simp
  · rw [h1]; simp
  · rw [h] at h2; exact absurd h2 (by simp)

/-- C1 (the code departs from the claim): in the directory `d` that holds
`e3.png`, the resolver called with starting length 2, the digest
`e3b0c442...` and the extension `png` returns `e3.png`, the name that exists,
where the claim requires the smallest free length, 3, that is `e3b.png`. -/
theorem resolver_returns_occupied_name :
    statOf ["d/e3.png"] "d/e3.png" = none ∧
    statOf ["d/e3.png"] "d/e3b.png" = some Errno.ENOENT ∧
    shortestAvailableTruncatedFilename (statOf ["d/e3.png"]) 2 "d" emptyDigestHex "png"
      = ("e3.png", none) := by
  refine ⟨by decide, by decide, ?_⟩
  rw [shortestAvailableTruncatedFilename_eq]
  decide

/-- C8 (the code departs from the claim): in the directory that holds every
prefix name of length 2 to 64 of the digest, the resolver returns after its
first existence check with the name of length 2, `e3.png`; it does not fall
through to the full-length name. -/
theorem resolver_no_fall_through :
    (∀ k : Nat, k < 63 → statOf fullDirectory
        (filepathJoin "d" (firstN emptyDigestHex ((k : Int) + 2) ++ ".png")) = none) ∧
    shortestAvailableTruncatedFilename (statOf fullDirectory) 2 "d" emptyDigestHex "png"
      = ("e3.png", none) ∧
    "e3.png" ≠ emptyDigestHex ++ ".png" := by
  refine ⟨?_, ?_, by decide⟩
  · intro k hk
    have hmem : filepathJoin "d" (firstN emptyDigestHex ((k : Int) + 2) ++ ".png")
        ∈ fullDirectory := List.mem_map.2 ⟨k, List.mem_range.2 hk, rfl⟩
    simp [statOf, hmem]
  · have h0 : statOf fullDirectory
        (filepathJoin "d" (firstN emptyDigestHex 2 ++ ".png")) = none := by
      have hmem : filepathJoin "d" (firstN emptyDigestHex (((0 : Nat) : Int) + 2) ++ ".png")
          ∈ fullDirectory := List.mem_map.2 ⟨0, List.mem_range.2 (by decide), rfl⟩
      simp only [statOf]
      rw [if_pos]
      simpa using hmem
    rw [resolver_existing _ _ _ _ _ h0]
    decide

/-- C5: when `os.Stat` on the candidate path fails with an error `e` other than
"not found", `fileExists` returns `(true, e)` and the resolver returns the
empty name with the error `e`, whatever the state of the longer candidates. -/
theorem stat_failure_propagates (Stat : String → error) (startingLength : Int)
    (destDir nameToTruncate ext : String) (e : Errno)
    (hstat : Stat (filepathJoin destDir (firstN nameToTruncate startingLength ++ "." ++ ext))
      = some e)
    (hne : IsNotExist (some e) = false) :
    fileExists Stat (filepathJoin destDir (firstN nameToTruncate startingLength ++ "." ++ ext))
      = (true, some e) ∧
    shortestAvailableTruncatedFilename Stat startingLength destDir nameToTruncate ext
      = ("", some e) := by
  have hfe : fileExists Stat
      (filepathJoin destDir (firstN nameToTruncate startingLength ++ "." ++ ext))
      = (true, some e) := by
    simp only [fileExists, hstat, hne]
    simp
  refine ⟨hfe, ?_⟩
  rw [shortestAvailableTruncatedFilename_eq, hfe]
  simp

/-- Witness of C5: permission denied on every path. -/
theorem stat_failure_propagates_witness :
    fileExists (fun _ => some Errno.EACCES)
        (filepathJoin "d" (firstN emptyDigestHex 2 ++ "." ++ "png")) = (true, some Errno.EACCES) ∧
    shortestAvailableTruncatedFilename (fun _ => some Errno.EACCES) 2 "d" emptyDigestHex "png"
      = ("", some Errno.EACCES) :=
  stat_failure_propagates (fun _ => some Errno.EACCES) 2 "d" emptyDigestHex "png" Errno.EACCES
    rfl rfl

/-- C9 (the code departs from the claim): with starting length 5, the name
`abc` and the empty directory the resolver returns `abc.png` without error; its
basename `abc` has 3 code points, so no leading part of `abc` with at least 5
code points is the basename, against `returned truncations will have a
basename no shorter than startingLength`. -/
theorem resolver_basename_shorter :
    shortestAvailableTruncatedFilename (statOf []) 5 "d" "abc" "png" = ("abc.png", none) ∧
    ¬ ∃ base : String, "abc.png" = base ++ "." ++ "png" ∧
        (∃ rest : String, "abc" = base ++ rest) ∧ (5 : Int) ≤ (base.length : Int) := by
  refine ⟨?_, ?_⟩
  · rw [shortestAvailableTruncatedFilename_eq]
    decide
  · rintro ⟨base, -, ⟨rest, hrest⟩, hlen⟩
    have h1 : ("abc" : String).length = base.length + rest.length := by
      rw [hrest, String.length_append]
    have h2 : ("abc" : String).length = 3 := by decide
    omega

/-- What the resolver does guarantee on the basename: whenever it returns a
name without error, the name is `base ++ "." ++ ext` for a leading part `base`
of `nameToTruncate` that has at least `min startingLength (length
nameToTruncate)` code points. -/
theorem resolver_basename (Stat : String → error) (startingLength : Int)
    (destDir nameToTruncate ext result : String)
    (h : shortestAvailableTruncatedFilename Stat startingLength destDir nameToTruncate ext
      = (result, none)) :
    ∃ base : String, result = base ++ "." ++ ext ∧
      (∃ rest : String, nameToTruncate = base ++ rest) ∧
      min startingLength (nameToTruncate.length : Int) ≤ (base.length : Int) := by
  refine ⟨firstN nameToTruncate startingLength,
    resolver_single_probe Stat startingLength destDir nameToTruncate ext result h, ?_, ?_⟩
  · by_cases hn : 0 ≤ startingLength
    · obtain ⟨k, rfl⟩ := Int.eq_ofNat_of_zero_le hn
      exact firstN_append_rest nameToTruncate k
    · refine ⟨"", ?_⟩
      rw [firstN_neg nameToTruncate startingLength (by omega)]
      simp
  · by_cases hn : 0 ≤ startingLength
    · obtain ⟨k, rfl⟩ := Int.eq_ofNat_of_zero_le hn
      rw [firstN_length nameToTruncate k]
      omega
    · rw [firstN_neg nameToTruncate startingLength (by omega)]
      omega

/-! ## Lemmas on the directory operations -/

theorem removeFile_writeFile (fs : FileSystem) (p : String) (c : Bytes) (h : fs p = none) :
    removeFile (writeFile fs p c) p = fs := by
  funext q
  by_cases hq : q = p
  · simp [removeFile, hq, h]
  · simp [removeFile, writeFile, hq]

theorem writeFile_writeFile (fs : FileSystem) (p : String) (c c2 : Bytes) :
    writeFile (writeFile fs p c) p c2 = writeFile fs p c2 := by
  funext q
  by_cases hq : q = p <;> simp [writeFile, hq]

theorem writeFile_same (fs : FileSystem) (p : String) (c : Bytes) :
    writeFile fs p c p = some c := by
  simp [writeFile]

/-- What `os.CreateTemp` returns: on failure the directory is unchanged; on
success the file is new and empty, at offset 0, its name was free and has the
form `destDir/tmp-upload-<number>`. -/
theorem CreateTempLoop_spec (w : World) (fs : FileSystem) :
    ∀ (fuel attempt : Nat),
      (∃ e, CreateTempLoop w fs "tmp-upload-" fuel attempt = (none, fs, some e)) ∨
      (∃ k, fs (filepathJoin w.destDir ("tmp-upload-" ++ Nat.repr k)) = none ∧
        CreateTempLoop w fs "tmp-upload-" fuel attempt =
          (some ⟨filepathJoin w.destDir ("tmp-upload-" ++ Nat.repr k), 0⟩,
           writeFile fs (filepathJoin w.destDir ("tmp-upload-" ++ Nat.repr k)) [], none)) := by
  intro fuel
  induction fuel with
  | zero => intro attempt; left; exact ⟨_, rfl⟩
  | succ fuel ih =>
    intro attempt
    simp only [CreateTempLoop]
    cases hop : w.openFault with
    | some e => left; exact ⟨e, rfl⟩
    | none =>
      simp only []
      by_cases hex : (fs (filepathJoin w.destDir
          ("tmp-upload-" ++ Nat.repr (w.rand attempt)))).isSome = true
      · rw [if_pos hex]
        exact ih (attempt + 1)
      · rw [if_neg hex]
        right
        refine ⟨w.rand attempt, ?_, rfl⟩
        cases hfs : fs (filepathJoin w.destDir ("tmp-upload-" ++ Nat.repr (w.rand attempt))) with
        | none => rfl
        | some c => rw [hfs] at hex; exact absurd rfl hex

/-- The hex text of a digest has an even number of characters: its first two
code points are none or two. -/
theorem firstN_two_EncodeToString (b : Bytes) :
    (firstN (EncodeToString b) 2).data = [] ∨
    ∃ x y, (firstN (EncodeToString b) 2).data = [x, y] := by
  have h := firstN_nat (EncodeToString b) 2
  have h2 : ((2 : Nat) : Int) = 2 := rfl
  rw [h2] at h
  rw [h]
  cases b with
  | nil => left; rfl
  | cons v vs => right; exact ⟨_, _, rfl⟩

/-- The temporary name differs from every published name: `tmp-upload-...`
against two hex characters (or none), a dot and the extension. -/
theorem temp_ne_dest (d : String) (k : Nat) (b : Bytes) (ext : String) :
    filepathJoin d ("tmp-upload-" ++ Nat.repr k)
      ≠ filepathJoin d (firstN (EncodeToString b) 2 ++ "." ++ ext) := by
  intro h
  have hd := congrArg String.data h
  simp only [filepathJoin, String.data_append] at hd
  have hd2 := List.append_cancel_left hd
  rcases firstN_two_EncodeToString b with h0 | ⟨x, y, h2⟩
  · rw [h0] at hd2
    simp at hd2
  · rw [h2] at hd2
    simp at hd2

theorem Rename_err (w : World) (fs : FileSystem) (a b : String)
    (h : (Rename w fs a b).2 ≠ none) : (Rename w fs a b).1 = fs := by
  unfold Rename at *
  cases hf : w.renameFault with
  | some e => rfl
  | none =>
    cases ha : fs a with
    | none => rfl
    | some c => simp [hf, ha] at h

theorem Rename_ok (w : World) (fs : FileSystem) (a b : String) (c : Bytes)
    (ha : fs a = some c) (h : (Rename w fs a b).2 = none) :
    (Rename w fs a b).1 = writeFile (removeFile fs a) b c := by
  unfold Rename at *
  cases hf : w.renameFault with
  | some e => simp [hf] at h
  | none => simp [ha]

/-- Case analysis of `uploadStaged`: a property holds of its outcome as soon as
it holds of the outcome of each of its seven exits, given what the calls before
that exit returned. -/
theorem uploadStaged_elim (w : World) (fs : FileSystem) (tempFile : File) (r : Request)
    (P : Outcome → Prop)
    (hcopy : ∀ tf1 fs1 e, copyToFile w fs tempFile r = (tf1, fs1, some e) →
      P ⟨handleErr (some e) "error writing uploaded file to disk" 500, fs1, []⟩)
    (hhash : ∀ tf1 fs1 hashInput tf2 e, copyToFile w fs tempFile r = (tf1, fs1, none) →
      copyFromFile w fs1 tf1 = (hashInput, tf2, some e) →
      P ⟨handleErr (some e) "error hashing file" 500, fs1, [Event.hashed hashInput]⟩)
    (hclass : ∀ tf1 fs1 hashInput tf2 fileExt err,
      copyToFile w fs tempFile r = (tf1, fs1, none) →
      copyFromFile w fs1 tf1 = (hashInput, tf2, none) →
      inferFileExtension w fs1 tempFile.name = (fileExt, err) →
      (err ≠ none ∨ fileExt = "unknown") →
      P ⟨handleErr err "failed to infer file type" 400, fs1,
        [Event.hashed hashInput, Event.classified fileExt err]⟩)
    (hname : ∀ tf1 fs1 hashInput tf2 fileExt fileName e,
      copyToFile w fs tempFile r = (tf1, fs1, none) →
      copyFromFile w fs1 tf1 = (hashInput, tf2, none) →
      inferFileExtension w fs1 tempFile.name = (fileExt, none) → fileExt ≠ "unknown" →
      shortestAvailableTruncatedFilename (Stat w fs1) 2 w.destDir
        (EncodeToString (w.Sum256 hashInput)) fileExt = (fileName, some e) →
      P ⟨handleErr (some e) "error generating filename for uploaded file" 500, fs1,
        [Event.hashed hashInput, Event.classified fileExt none,
         Event.resolve 2 (EncodeToString (w.Sum256 hashInput)) fileExt]⟩)
    (hrename : ∀ tf1 fs1 hashInput tf2 fileExt fileName fs2 e,
      copyToFile w fs tempFile r = (tf1, fs1, none) →
      copyFromFile w fs1 tf1 = (hashInput, tf2, none) →
      inferFileExtension w fs1 tempFile.name = (fileExt, none) → fileExt ≠ "unknown" →
      shortestAvailableTruncatedFilename (Stat w fs1) 2 w.destDir
        (EncodeToString (w.Sum256 hashInput)) fileExt = (fileName, none) →
      Rename w fs1 tempFile.name (filepathJoin w.destDir fileName) = (fs2, some e) →
      P ⟨handleErr (some e) "error moving temporary file to FS_DEST_DIR" 500, fs2,
        [Event.hashed hashInput, Event.classified fileExt none,
         Event.resolve 2 (EncodeToString (w.Sum256 hashInput)) fileExt,
         Event.rename tempFile.name (filepathJoin w.destDir fileName)]⟩)
    (hurl : ∀ tf1 fs1 hashInput tf2 fileExt fileName fs2 e,
      copyToFile w fs tempFile r = (tf1, fs1, none) →
      copyFromFile w fs1 tf1 = (hashInput, tf2, none) →
      inferFileExtension w fs1 tempFile.name = (fileExt, none) → fileExt ≠ "unknown" →
      shortestAvailableTruncatedFilename (Stat w fs1) 2 w.destDir
        (EncodeToString (w.Sum256 hashInput)) fileExt = (fileName, none) →
      Rename w fs1 tempFile.name (filepathJoin w.destDir fileName) = (fs2, none) →
      w.urlParse ("./" ++ fileName) = some e →
      P ⟨handleErr (some e) "internal error constructing file URL" 500, fs2,
        [Event.hashed hashInput, Event.classified fileExt none,
         Event.resolve 2 (EncodeToString (w.Sum256 hashInput)) fileExt,
         Event.rename tempFile.name (filepathJoin w.destDir fileName)]⟩)
    (hok : ∀ tf1 fs1 hashInput tf2 fileExt fileName fs2,
      copyToFile w fs tempFile r = (tf1, fs1, none) →
      copyFromFile w fs1 tf1 = (hashInput, tf2, none) →
      inferFileExtension w fs1 tempFile.name = (fileExt, none) → fileExt ≠ "unknown" →
      shortestAvailableTruncatedFilename (Stat w fs1) 2 w.destDir
        (EncodeToString (w.Sum256 hashInput)) fileExt = (fileName, none) →
      Rename w fs1 tempFile.name (filepathJoin w.destDir fileName) = (fs2, none) →
      w.urlParse ("./" ++ fileName) = none →
      P ⟨⟨200, w.ResolveReference ("./" ++ fileName) ++ "\n"⟩, fs2,
        [Event.hashed hashInput, Event.classified fileExt none,
         Event.resolve 2 (EncodeToString (w.Sum256 hashInput)) fileExt,
         Event.rename tempFile.name (filepathJoin w.destDir fileName)]⟩) :
    P (uploadStaged w fs tempFile r) := by
  unfold uploadStaged
  rcases hc : copyToFile w fs tempFile r with ⟨tf1, fs1, e1⟩
  cases e1 with
  | some e => simpa using hcopy tf1 fs1 e hc
  | none =>
    rcases hh : copyFromFile w fs1 tf1 with ⟨hashInput, tf2, e2⟩
    cases e2 with
    | some e => simpa [hh] using hhash tf1 fs1 hashInput tf2 e hc hh
    | none =>
      rcases hi : inferFileExtension w fs1 tempFile.name with ⟨fileExt, e3⟩
      by_cases hbad : e3 ≠ none ∨ fileExt = "unknown"
      · simpa [hh, hi, hbad] using hclass tf1 fs1 hashInput tf2 fileExt e3 hc hh hi hbad
      · have he3 : e3 = none := by
          by_contra hne
          exact hbad (Or.inl hne)
        have hext : fileExt ≠ "unknown" := fun hu => hbad (Or.inr hu)
        subst he3
        rcases hs : shortestAvailableTruncatedFilename (Stat w fs1) 2 w.destDir
          (EncodeToString (w.Sum256 hashInput)) fileExt with ⟨fileName, e4⟩
        cases e4 with
        | some e =>
          simpa [hh, hi, hext, hs] using
            hname tf1 fs1 hashInput tf2 fileExt fileName e hc hh hi hext hs
        | none =>
          rcases hr : Rename w fs1 tempFile.name (filepathJoin w.destDir fileName)
            with ⟨fs2, e5⟩
          cases e5 with
          | some e =>
            simpa [hh, hi, hext, hs, hr] using
              hrename tf1 fs1 hashInput tf2 fileExt fileName fs2 e hc hh hi hext hs hr
          | none =>
            cases hu : w.urlParse ("./" ++ fileName) with
            | some e =>
              simpa [hh, hi, hext, hs, hr, hu] using
                hurl tf1 fs1 hashInput tf2 fileExt fileName fs2 e hc hh hi hext hs hr hu
            | none =>
              simpa [hh, hi, hext, hs, hr, hu] using
                hok tf1 fs1 hashInput tf2 fileExt fileName fs2 hc hh hi hext hs hr hu

/-- Case analysis of `upload`: either `os.CreateTemp` failed, or a temporary
file with a name that was free has been created empty and the outcome is that
of `uploadStaged` followed by the deferred removal. -/
theorem upload_elim (w : World) (fs : FileSystem) (r : Request) (P : Outcome → Prop)
    (hfail : ∀ e, P ⟨handleErr (some e) "error writing temporary file to disk" 500, fs, []⟩)
    (hstaged : ∀ k, fs (filepathJoin w.destDir ("tmp-upload-" ++ Nat.repr k)) = none →
      P ⟨(uploadStaged w (writeFile fs (filepathJoin w.destDir ("tmp-upload-" ++ Nat.repr k)) [])
            ⟨filepathJoin w.destDir ("tmp-upload-" ++ Nat.repr k), 0⟩ r).response,
         Remove (uploadStaged w
            (writeFile fs (filepathJoin w.destDir ("tmp-upload-" ++ Nat.repr k)) [])
            ⟨filepathJoin w.destDir ("tmp-upload-" ++ Nat.repr k), 0⟩ r).fs
            (filepathJoin w.destDir ("tmp-upload-" ++ Nat.repr k)),
         (uploadStaged w (writeFile fs (filepathJoin w.destDir ("tmp-upload-" ++ Nat.repr k)) [])
            ⟨filepathJoin w.destDir ("tmp-upload-" ++ Nat.repr k), 0⟩ r).trace⟩) :
    P (upload w fs r) := by
  unfold upload CreateTemp
  rcases CreateTempLoop_spec w fs 10000 0 with ⟨e, hc⟩ | ⟨k, hfree, hc⟩
  · rw [hc]
    exact hfail e
  · rw [hc]
    exact hstaged k hfree

/-- The first copy on the fresh temporary file: the file holds the bytes
written, the offset stands behind them, and without error the bytes written are
the whole body. -/
theorem copyToFile_fresh (w : World) (fs : FileSystem) (t : String) (r : Request)
    (tf1 : File) (fs1 : FileSystem) (e : error)
    (h : copyToFile w (writeFile fs t []) ⟨t, 0⟩ r = (tf1, fs1, e)) :
    ∃ data : Bytes, tf1 = ⟨t, data.length⟩ ∧ fs1 = writeFile fs t data ∧
      (e = none → data = r.Body) := by
  unfold copyToFile at h
  simp only [writeFile_same, Option.getD_some, writeAt, List.take_nil, List.drop_nil,
    List.nil_append, List.append_nil, Nat.zero_add, writeFile_writeFile, Prod.mk.injEq] at h
  obtain ⟨h1, h2, h3⟩ := h
  cases hwf : w.writeFault with
  | some ke =>
    rw [hwf] at h1 h2 h3
    refine ⟨r.Body.take ke.1, h1.symm, h2.symm, ?_⟩
    intro he
    rw [he] at h3
    simp at h3
  | none =>
    rw [hwf] at h1 h2 h3
    exact ⟨r.Body, h1.symm, h2.symm, fun _ => rfl⟩

/-- The second copy starts at the offset the first copy left, the end of the
file: the hasher is fed no byte. -/
theorem copyFromFile_at_end (w : World) (fs : FileSystem) (t : String) (data : Bytes)
    (hashInput : Bytes) (tf2 : File) (e : error)
    (h : copyFromFile w (writeFile fs t data) ⟨t, data.length⟩ = (hashInput, tf2, e)) :
    hashInput = [] := by
  unfold copyFromFile at h
  simp only [writeFile_same, Option.getD_some, List.drop_length] at h
  cases hrf : w.readFault with
  | some ke =>
    rw [hrf] at h
    simp only [List.take_nil, Prod.mk.injEq] at h
    exact h.1.symm
  | none =>
    rw [hrf] at h
    simp only [Prod.mk.injEq] at h
    exact h.1.symm

/-! ## Properties of the handler -/

/-- C4: round-trip integrity. If `upload` answers with status 200, there is a
name `fileName`, the published filename, such that the temporary file was
renamed to `fileName` in the destination directory, the body of the answer is
the URL resolved from `"./" ++ fileName`, and afterwards the destination
directory holds under `fileName` a file whose content is exactly the request
body. -/
theorem upload_round_trip (w : World) (fs : FileSystem) (r : Request)
    (h200 : (upload w fs r).response.status = 200) :
    ∃ fileName : String,
      (∃ tempName, Event.rename tempName (filepathJoin w.destDir fileName)
        ∈ (upload w fs r).trace) ∧
      (upload w fs r).response.body = w.ResolveReference ("./" ++ fileName) ++ "\n" ∧
      (upload w fs r).fs (filepathJoin w.destDir fileName) = some r.Body := by
  revert h200
  refine upload_elim w fs r
    (fun out => out.response.status = 200 → ∃ fileName : String,
      (∃ tempName, Event.rename tempName (filepathJoin w.destDir fileName) ∈ out.trace) ∧
      out.response.body = w.ResolveReference ("./" ++ fileName) ++ "\n" ∧
      out.fs (filepathJoin w.destDir fileName) = some r.Body) ?_ ?_
  · intro e h
    exact absurd h (by simp [handleErr])
  · intro k hfree
    refine uploadStaged_elim w _ _ r
      (fun o => o.response.status = 200 → ∃ fileName : String,
        (∃ tempName, Event.rename tempName (filepathJoin w.destDir fileName) ∈ o.trace) ∧
        o.response.body = w.ResolveReference ("./" ++ fileName) ++ "\n" ∧
        Remove o.fs (filepathJoin w.destDir ("tmp-upload-" ++ Nat.repr k))
          (filepathJoin w.destDir fileName) = some r.Body) ?_ ?_ ?_ ?_ ?_ ?_ ?_
    · intro _ _ _ _ h; exact absurd h (by simp [handleErr])
    · intro _ _ _ _ _ _ _ h; exact absurd h (by simp [handleErr])
    · intro _ _ _ _ _ _ _ _ _ _ h; exact absurd h (by simp [handleErr])
    · intro _ _ _ _ _ _ _ _ _ _ _ _ h; exact absurd h (by simp [handleErr])
    · intro _ _ _ _ _ _ _ _ _ _ _ _ _ _ h; exact absurd h (by simp [handleErr])
    · intro _ _ _ _ _ _ _ _ _ _ _ _ _ _ _ h; exact absurd h (by simp [handleErr])
    · intro tf1 fs1 hashInput tf2 fileExt fileName fs2 hc hh hi hext hs hr hu _
      obtain ⟨data, htf1, hfs1, hdata⟩ := copyToFile_fresh w fs _ r tf1 fs1 none hc
      have hbody : data = r.Body := hdata rfl
      subst hbody
      have hname := resolver_single_probe _ _ _ _ _ _ hs
      have hfs2 : fs2 = writeFile (removeFile fs1
          (filepathJoin w.destDir ("tmp-upload-" ++ Nat.repr k)))
          (filepathJoin w.destDir fileName) r.Body := by
        have h1 := Rename_ok w fs1 (filepathJoin w.destDir ("tmp-upload-" ++ Nat.repr k))
          (filepathJoin w.destDir fileName) r.Body (by rw [hfs1]; exact writeFile_same _ _ _)
          (by rw [hr])
        rw [hr] at h1
        exact h1
      refine ⟨fileName, ⟨filepathJoin w.destDir ("tmp-upload-" ++ Nat.repr k), ?_⟩, rfl, ?_⟩
      · simp
      · have hne : filepathJoin w.destDir fileName
            ≠ filepathJoin w.destDir ("tmp-upload-" ++ Nat.repr k) := by
          rw [hname]
          exact fun h => temp_ne_dest w.destDir k _ fileExt h.symm
        show removeFile fs2 _ _ = _
        rw [hfs2]
        simp [removeFile, writeFile, hne]

/-- Witness of C4: a PNG uploaded into the empty directory. -/
theorem upload_round_trip_witness :
    (upload quietWorld emptyDir ⟨pngBytes, none⟩).response.status = 200 ∧
    ∃ fileName : String,
      (∃ tempName, Event.rename tempName (filepathJoin quietWorld.destDir fileName)
        ∈ (upload quietWorld emptyDir ⟨pngBytes, none⟩).trace) ∧
      (upload quietWorld emptyDir ⟨pngBytes, none⟩).response.body
        = quietWorld.ResolveReference ("./" ++ fileName) ++ "\n" ∧
      (upload quietWorld emptyDir ⟨pngBytes, none⟩).fs (filepathJoin quietWorld.destDir fileName)
        = some pngBytes :=
  ⟨by simp only [upload, uploadStaged, shortestAvailableTruncatedFilename_eq]; decide,
   upload_round_trip quietWorld emptyDir ⟨pngBytes, none⟩
    (by simp only [upload, uploadStaged, shortestAvailableTruncatedFilename_eq]; decide)⟩

/-- C6: whenever the classifier, run on the staged file, fails or answers
`unknown`, `upload` answers with status 400 and the message `failed to infer
file type`, its run contains no call of the resolver and none of `os.Rename`,
and the destination directory is left as it was: no temporary and no published
file remains. -/
theorem upload_unclassifiable_rejected (w : World) (fs : FileSystem) (r : Request)
    (fileExt : String) (err : error)
    (hrun : Event.classified fileExt err ∈ (upload w fs r).trace)
    (hbad : err ≠ none ∨ fileExt = "unknown") :
    (upload w fs r).response = ⟨400, "failed to infer file type\n"⟩ ∧
    (∀ ev ∈ (upload w fs r).trace, isResolveOrRename ev = false) ∧
    (upload w fs r).fs = fs := by
  revert hrun
  refine upload_elim w fs r
    (fun out => Event.classified fileExt err ∈ out.trace →
      out.response = ⟨400, "failed to infer file type\n"⟩ ∧
      (∀ ev ∈ out.trace, isResolveOrRename ev = false) ∧ out.fs = fs) ?_ ?_
  · intro e h
    exact absurd h (by simp)
  · intro k hfree
    refine uploadStaged_elim w _ _ r
      (fun o => Event.classified fileExt err ∈ o.trace →
        o.response = ⟨400, "failed to infer file type\n"⟩ ∧
        (∀ ev ∈ o.trace, isResolveOrRename ev = false) ∧
        Remove o.fs (filepathJoin w.destDir ("tmp-upload-" ++ Nat.repr k)) = fs)
      ?_ ?_ ?_ ?_ ?_ ?_ ?_
    · intro _ _ _ _ h; exact absurd h (by simp)
    · intro _ _ _ _ _ _ _ h; exact absurd h (by simp)
    · intro tf1 fs1 hashInput tf2 fileExt2 err2 hc _ _ _ _
      obtain ⟨data, -, hfs1, -⟩ := copyToFile_fresh w fs _ r tf1 fs1 none hc
      refine ⟨by simp only [handleErr]; decide, ?_, ?_⟩
      · intro ev hev
        simp only [List.mem_cons, List.mem_singleton, List.not_mem_nil, or_false] at hev
        rcases hev with rfl | rfl <;> rfl
      · show removeFile fs1 _ = fs
        rw [hfs1]
        exact removeFile_writeFile fs _ data hfree
    · intro _ _ _ _ fileExt2 _ _ _ _ _ hext _ h
      simp only [List.mem_cons, List.mem_singleton, List.not_mem_nil, or_false,
        Event.classified.injEq, false_or, reduceCtorEq] at h
      rcases hbad with hb | hb
      · exact absurd h.2 hb
      · exact absurd (h.1 ▸ hb) hext
    · intro _ _ _ _ fileExt2 _ _ _ _ _ _ hext _ _ h
      simp only [List.mem_cons, List.mem_singleton, List.not_mem_nil, or_false,
        Event.classified.injEq, false_or, reduceCtorEq] at h
      rcases hbad with hb | hb
      · exact absurd h.2 hb
      · exact absurd (h.1 ▸ hb) hext
    · intro _ _ _ _ fileExt2 _ _ _ _ _ _ hext _ _ _ h
      simp only [List.mem_cons, List.mem_singleton, List.not_mem_nil, or_false,
        Event.classified.injEq, false_or, reduceCtorEq] at h
      rcases hbad with hb | hb
      · exact absurd h.2 hb
      · exact absurd (h.1 ▸ hb) hext
    · intro _ _ _ _ fileExt2 _ _ _ _ _ hext _ _ _ h
      simp only [List.mem_cons, List.mem_singleton, List.not_mem_nil, or_false,
        Event.classified.injEq, false_or, reduceCtorEq] at h
      rcases hbad with hb | hb
      · exact absurd h.2 hb
      · exact absurd (h.1 ▸ hb) hext

/-- Witness of C6: sixteen zero bytes uploaded into the empty directory. -/
theorem upload_unclassifiable_rejected_witness :
    Event.classified "unknown" none ∈ (upload quietWorld emptyDir ⟨zeroBytes, none⟩).trace ∧
    ((upload quietWorld emptyDir ⟨zeroBytes, none⟩).response
        = ⟨400, "failed to infer file type\n"⟩ ∧
      (∀ ev ∈ (upload quietWorld emptyDir ⟨zeroBytes, none⟩).trace,
        isResolveOrRename ev = false) ∧
      (upload quietWorld emptyDir ⟨zeroBytes, none⟩).fs = emptyDir) :=
  ⟨by simp only [upload, uploadStaged, shortestAvailableTruncatedFilename_eq]; decide,
   upload_unclassifiable_rejected quietWorld emptyDir ⟨zeroBytes, none⟩ "unknown" none
    (by simp only [upload, uploadStaged, shortestAvailableTruncatedFilename_eq]; decide)
    (Or.inr rfl)⟩

/-- A classification without error is the extension `filetype` matches on
some content. -/
theorem inferFileExtension_ok (w : World) (fs : FileSystem) (path fileExt : String)
    (h : inferFileExtension w fs path = (fileExt, none)) :
    ∃ content : Bytes, fileExt = w.Match content := by
  unfold inferFileExtension MatchFile at h
  cases hf : w.matchFault with
  | some e => simp [hf] at h
  | none =>
    cases hp : fs path with
    | none => simp [hf, hp] at h
    | some c =>
      refine ⟨c, ?_⟩
      simp [hf, hp] at h
      exact h.symm

/-- C7: failure atomicity. `url.Parse` is a library function; it accepts every
reference `upload` can build, `./` followed by the first two hex digits of a
digest, a dot and an extension of `filetype` (hypothesis `hparse`). Then for
every run of `upload` that ends with a failure response, on whichever
`handleErr` exit, the destination directory afterwards holds exactly the files
it held before the request: the temporary file is gone and nothing has been
published. -/
theorem upload_failure_atomic (w : World) (fs : FileSystem) (r : Request)
    (hparse : ∀ digest content : Bytes,
      w.urlParse ("./" ++ (firstN (EncodeToString digest) 2 ++ "." ++ w.Match content)) = none)
    (hfail : (upload w fs r).response.status ≠ 200) :
    (upload w fs r).fs = fs := by
  revert hfail
  refine upload_elim w fs r (fun out => out.response.status ≠ 200 → out.fs = fs) ?_ ?_
  · intro _ _
    rfl
  · intro k hfree
    refine uploadStaged_elim w _ _ r
      (fun o => o.response.status ≠ 200 →
        Remove o.fs (filepathJoin w.destDir ("tmp-upload-" ++ Nat.repr k)) = fs)
      ?_ ?_ ?_ ?_ ?_ ?_ ?_
    · intro tf1 fs1 e hc _
      obtain ⟨data, -, hfs1, -⟩ := copyToFile_fresh w fs _ r tf1 fs1 _ hc
      show removeFile fs1 _ = fs
      rw [hfs1]
      exact removeFile_writeFile fs _ data hfree
    · intro tf1 fs1 _ _ _ hc _ _
      obtain ⟨data, -, hfs1, -⟩ := copyToFile_fresh w fs _ r tf1 fs1 _ hc
      show removeFile fs1 _ = fs
      rw [hfs1]
      exact removeFile_writeFile fs _ data hfree
    · intro tf1 fs1 _ _ _ _ hc _ _ _ _
      obtain ⟨data, -, hfs1, -⟩ := copyToFile_fresh w fs _ r tf1 fs1 _ hc
      show removeFile fs1 _ = fs
      rw [hfs1]
      exact removeFile_writeFile fs _ data hfree
    · intro tf1 fs1 _ _ _ _ _ hc _ _ _ _ _
      obtain ⟨data, -, hfs1, -⟩ := copyToFile_fresh w fs _ r tf1 fs1 _ hc
      show removeFile fs1 _ = fs
      rw [hfs1]
      exact removeFile_writeFile fs _ data hfree
    · intro tf1 fs1 _ _ _ fileName fs2 e hc _ _ _ _ hr _
      obtain ⟨data, -, hfs1, -⟩ := copyToFile_fresh w fs _ r tf1 fs1 _ hc
      have h2 : fs2 = fs1 := by
        have h1 := Rename_err w fs1 (filepathJoin w.destDir ("tmp-upload-" ++ Nat.repr k))
          (filepathJoin w.destDir fileName) (by rw [hr]; simp)
        rw [hr] at h1
        exact h1
      show removeFile fs2 _ = fs
      rw [h2, hfs1]
      exact removeFile_writeFile fs _ data hfree
    · intro _ fs1 hashInput _ fileExt fileName _ e _ _ hi _ hs _ hu _
      exfalso
      obtain ⟨content, hext⟩ := inferFileExtension_ok w fs1 _ fileExt hi
      have hname := resolver_single_probe _ _ _ _ _ _ hs
      rw [hname, hext, hparse (w.Sum256 hashInput) content] at hu
      exact absurd hu (by simp)
    · intro _ _ _ _ _ _ _ _ _ _ _ _ _ _ hstatus
      exact absurd rfl hstatus

/-- Witness of C7: the rejected upload of sixteen zero bytes. -/
theorem upload_failure_atomic_witness :
    (∀ digest content : Bytes,
      quietWorld.urlParse
        ("./" ++ (firstN (EncodeToString digest) 2 ++ "." ++ quietWorld.Match content)) = none) ∧
    (upload quietWorld emptyDir ⟨zeroBytes, none⟩).response.status ≠ 200 ∧
    (upload quietWorld emptyDir ⟨zeroBytes, none⟩).fs = emptyDir :=
  ⟨fun _ _ => rfl,
   by simp only [upload, uploadStaged, shortestAvailableTruncatedFilename_eq]; decide,
   upload_failure_atomic quietWorld emptyDir ⟨zeroBytes, none⟩ (fun _ _ => rfl)
    (by simp only [upload, uploadStaged, shortestAvailableTruncatedFilename_eq]; decide)⟩

/-- In every run, whatever the world, the directory and the request, the
hasher is fed no byte and the resolver, when called, gets the hex digest of the
empty input with starting length 2. -/
theorem upload_hash_input_nil (w : World) (fs : FileSystem) (r : Request) (ev : Event)
    (hev : ev ∈ (upload w fs r).trace) :
    (∀ input, ev = Event.hashed input → input = []) ∧
    (∀ n d x, ev = Event.resolve n d x → n = 2 ∧ d = EncodeToString (w.Sum256 [])) := by
  revert hev
  refine upload_elim w fs r
    (fun out => ev ∈ out.trace →
      (∀ input, ev = Event.hashed input → input = []) ∧
      (∀ n d x, ev = Event.resolve n d x → n = 2 ∧ d = EncodeToString (w.Sum256 []))) ?_ ?_
  · intro e h
    exact absurd h (by simp)
  · intro k _
    have key : ∀ tf1 fs1 hashInput tf2 e2,
        copyToFile w (writeFile fs (filepathJoin w.destDir ("tmp-upload-" ++ Nat.repr k)) [])
          ⟨filepathJoin w.destDir ("tmp-upload-" ++ Nat.repr k), 0⟩ r = (tf1, fs1, none) →
        copyFromFile w fs1 tf1 = (hashInput, tf2, e2) → hashInput = [] := by
      intro tf1 fs1 hashInput tf2 e2 hc hh
      obtain ⟨data, htf1, hfs1, -⟩ := copyToFile_fresh w fs _ r tf1 fs1 none hc
      rw [htf1, hfs1] at hh
      exact copyFromFile_at_end w fs _ data hashInput tf2 e2 hh
    refine uploadStaged_elim w _ _ r
      (fun o => ev ∈ o.trace →
        (∀ input, ev = Event.hashed input → input = []) ∧
        (∀ n d x, ev = Event.resolve n d x → n = 2 ∧ d = EncodeToString (w.Sum256 [])))
      ?_ ?_ ?_ ?_ ?_ ?_ ?_
    · intro _ _ _ _ h; exact absurd h (by simp)
    · intro tf1 fs1 hashInput tf2 e hc hh h
      have := key tf1 fs1 hashInput tf2 _ hc hh
      subst this
      simp only [List.mem_singleton] at h
      subst h
      simp
    · intro tf1 fs1 hashInput tf2 _ _ hc hh _ _ h
      have := key tf1 fs1 hashInput tf2 _ hc hh
      subst this
      simp only [List.mem_cons, List.mem_singleton, List.not_mem_nil, or_false] at h
      rcases h with rfl | rfl <;> simp
    · intro tf1 fs1 hashInput tf2 _ _ _ hc hh _ _ _ h
      have := key tf1 fs1 hashInput tf2 _ hc hh
      subst this
      simp only [List.mem_cons, List.mem_singleton, List.not_mem_nil, or_false] at h
      rcases h with rfl | rfl | rfl <;> simp
    · intro tf1 fs1 hashInput tf2 _ _ _ _ hc hh _ _ _ _ h
      have := key tf1 fs1 hashInput tf2 _ hc hh
      subst this
      simp only [List.mem_cons, List.mem_singleton, List.not_mem_nil, or_false] at h
      rcases h with rfl | rfl | rfl | rfl <;> simp
    · intro tf1 fs1 hashInput tf2 _ _ _ _ hc hh _ _ _ _ _ h
      have := key tf1 fs1 hashInput tf2 _ hc hh
      subst this
      simp only [List.mem_cons, List.mem_singleton, List.not_mem_nil, or_false] at h
      rcases h with rfl | rfl | rfl | rfl <;> simp
    · intro tf1 fs1 hashInput tf2 _ _ _ hc hh _ _ _ _ _ h
      have := key tf1 fs1 hashInput tf2 _ hc hh
      subst this
      simp only [List.mem_cons, List.mem_singleton, List.not_mem_nil, or_false] at h
      rcases h with rfl | rfl | rfl | rfl <;> simp

/-- C3 (the code departs from the claim): for the body `pngBytes`, which is not
empty, the second copy feeds the hasher the empty input, and the digest passed
to the resolver is `e3b0c442...`, the hex SHA-256 of the empty input, not a
digest of the body. -/
theorem upload_hashes_empty_input :
    pngBytes ≠ [] ∧
    (upload quietWorld emptyDir ⟨pngBytes, none⟩).trace =
      [Event.hashed [], Event.classified "png" none,
       Event.resolve 2 emptyDigestHex "png", Event.rename "d/tmp-upload-7" "d/e3.png"] := by
  refine ⟨by decide, ?_⟩
  simp only [upload, uploadStaged, shortestAvailableTruncatedFilename_eq]
  decide

/-- C2 (the code departs from the claim): the directory holds `d/e3.png` with
the content `olderPng`; the upload of `pngBytes` succeeds with status 200 and
afterwards `d/e3.png` holds `pngBytes`: the existing file has been replaced. -/
theorem upload_overwrites_existing_file :
    usedDir "d/e3.png" = some olderPng ∧
    (upload quietWorld usedDir ⟨pngBytes, none⟩).response
      = ⟨200, "https://cdn.example/e3.png\n"⟩ ∧
    (upload quietWorld usedDir ⟨pngBytes, none⟩).fs "d/e3.png" = some pngBytes ∧
    pngBytes ≠ olderPng := by
  refine ⟨by decide, ?_, ?_, by decide⟩
  · simp only [upload, uploadStaged, shortestAvailableTruncatedFilename_eq]; decide
  · simp only [upload, uploadStaged, shortestAvailableTruncatedFilename_eq]; decide

end Cdn
